import Mathlib

/-!
A shallow embedding of the CueGUI multi-window lifecycle manager
(src/cuegui/cuegui/MainWindow.py).

The embedding models the process-wide window registry (the class-level
`windows` list and the `windows_titles` / `windows_actions` tables), the
Window-menu label computation, the facility menu toggle handler, the
change-title flow, the settings store, and the quit broadcast.

Modeling conventions:
- Python object identity is modeled by a numeric `id` field; `AppState.nextId`
  supplies fresh identities to newly constructed windows.
- Python dicts and QSettings are modeled as association lists over `String`
  with first-match lookup; Python dict insertion order and overwrite-in-place
  semantics are preserved by `assocSet`.
- Qt signal/slot behavior needed by the source: `quit.connect` registrations
  are the `quitSubscribers` list (with multiplicity, in connection order);
  emitting `quit` invokes the handlers connected at emit time, in order
  (connections added during the emission are not invoked by it); a checkable
  QAction toggles its checked state before `triggered` fires, and programmatic
  `setChecked` does not fire `triggered`.
- Opaque Qt payloads (dock state, size, position) written by `__saveSettings`
  are modeled as placeholder strings; no claim reads them.
-/

namespace CueGui

/-- Association list lookup, mirroring a Python dict read and
`QSettings.value(key)` with no stored value giving `none`. -/
def assocGet? {β : Type} (l : List (String × β)) (k : String) : Option β :=
  (l.find? (fun p => p.1 == k)).map Prod.snd

/-- Association list lookup with a default, mirroring
`QSettings.value(key, default)` and `dict.get`. -/
def assocGetD {β : Type} (l : List (String × β)) (k : String) (d : β) : β :=
  (assocGet? l k).getD d

/-- The per-entry overwrite used by `assocSet`. -/
def assocSetFun {β : Type} (k : String) (v : β) : String × β → String × β :=
  fun p => if p.1 == k then (k, v) else p

/-- Association list update, mirroring Python dict assignment and
`QSettings.setValue`: overwrite in place if present, else append. -/
def assocSet {β : Type} (l : List (String × β)) (k : String) (v : β) : List (String × β) :=
  if l.any (fun p => p.1 == k) then
    l.map (assocSetFun k v)
  else
    l ++ [(k, v)]

/-- A live MainWindow instance: its identity, its slot name (`self.name`)
and its current live title (`self.windowTitle()`). -/
structure Window where
  id : Nat
  name : String
  windowTitle : String
deriving DecidableEq

/-- The process-wide state: the class-level registry (`MainWindow.windows`,
`windows_titles`, `windows_actions`), the settings store, the quit signal
connections, and the `qApp.closingApp` flag. -/
structure AppState where
  appName : String
  appVersion : String
  windows : List Window
  windows_titles : List (String × String)
  windows_actions : List (String × String)
  settings : List (String × String)
  quitSubscribers : List Nat
  closingApp : Bool
  nextId : Nat
deriving DecidableEq

/-- Source line 66: `[app_name] + ["%s_%s" % (app_name, num) for num in range(2, 5)]`. -/
def windowsNames (appName : String) : List String :=
  [appName, appName ++ "_2", appName ++ "_3", appName ++ "_4"]

/-- Source lines 291-299: the first loop of `__windowMenuUpdate`, with the
counter `number` starting at 1.  For each slot name: if a persisted title
exists (truthiness of `settings.value(name + "/Title", "")`), the label is
`"Open Window: "` followed by the `windows_titles` table entry; otherwise it
is `"(<number>) Add new window"`. -/
def slotLabels (settings titles : List (String × String)) :
    List String → Nat → List (String × String)
  | [], _ => []
  | n :: rest, number =>
    (n, if assocGetD settings (n ++ "/Title") "" ≠ "" then
          "Open Window: " ++ assocGetD titles n ""
        else
          "(" ++ toString number ++ ") Add new window")
      :: slotLabels settings titles rest (number + 1)

/-- Source lines 289-303: `__windowMenuUpdate`.  After the per-slot loop, the
second loop overwrites the label of every open window slot with
`"Raise Window: "` followed by the live window title. -/
def computeLabels (st : AppState) : List (String × String) :=
  st.windows.foldl
    (fun acc w => assocSet acc w.name ("Raise Window: " ++ w.windowTitle))
    (slotLabels st.settings st.windows_titles (windowsNames st.appName) 1)

/-- Writes the recomputed labels into the per-slot menu actions
(`self.windows_actions[name].setText(...)`). -/
def windowMenuUpdateState (st : AppState) : AppState :=
  { st with windows_actions := computeLabels st }

/-- Source lines 360-366: `__windowOpened`, called from `__init__` on window
creation: connect `quit` to `close`, append to the class-level `windows`
list (unconditionally, with no duplicate guard), and reset
`qApp.closingApp` to False. -/
def windowOpened (st : AppState) (w : Window) : AppState :=
  { st with
    quitSubscribers := st.quitSubscribers ++ [w.id],
    windows := st.windows ++ [w],
    closingApp := false }

/-- Python `list.remove(x)` removes the first element equal to `x`; the
source wraps it in try/except, so a missing element is a no-op. -/
def removeFirstById : List Window → Nat → List Window
  | [], _ => []
  | w :: ws, i => if w.id == i then ws else w :: removeFirstById ws i

/-- The per-window update used by `setTitleById`. -/
def retitleFun (i : Nat) (t : String) : Window → Window :=
  fun w => if w.id == i then { w with windowTitle := t } else w

/-- Updates the live title of the window with the given identity
(`self.setWindowTitle(t)`). -/
def setTitleById (st : AppState) (i : Nat) (t : String) : AppState :=
  { st with windows := st.windows.map (retitleFun i t) }

/-- The live title of the window with the given identity
(`self.windowTitle()`); total with default `""` for a missing identity. -/
def titleOfD (st : AppState) (i : Nat) : String :=
  ((st.windows.find? (fun w => w.id == i)).map Window.windowTitle).getD ""

/-- Source lines 449-466: `__saveSettings` persists Version and the per-slot
Title/State/Size/Position keys.  State, Size and Position hold opaque Qt
values, modeled as placeholder strings; no modeled code reads them. -/
def saveSettings (st : AppState) (w : Window) : AppState :=
  { st with settings :=
      (assocSet (assocSet (assocSet (assocSet
        (assocSet st.settings "Version" st.appVersion)
        (w.name ++ "/Title") w.windowTitle)
        (w.name ++ "/State") "dockstate")
        (w.name ++ "/Size") "size")
        (w.name ++ "/Position") "position") }

/-- Source lines 368-386: `__windowClosed`, called from `closeEvent`.  Note
that line 373 CONNECTS `quit` to `close` again (although the comment above it
says disconnect), then the `"<name>/Open"` key records `closingApp`, the
window is removed from the class list (try/except pass), and the menu is
rebuilt. -/
def windowClosed (st : AppState) (w : Window) : AppState :=
  let st1 := { st with quitSubscribers := st.quitSubscribers ++ [w.id] }
  let st2 := { st1 with settings :=
      (assocSet st1.settings (w.name ++ "/Open") (toString st1.closingApp)) }
  let st3 := { st2 with windows := removeFirstById st2.windows w.id }
  windowMenuUpdateState st3

/-- Source lines 428-434: `closeEvent` runs `__saveSettings` then
`__windowClosed` on the closing window. -/
def closeWindowObj (st : AppState) (w : Window) : AppState :=
  windowClosed (saveSettings st w) w

/-- Delivery of a close to the window with the given identity: if it is
still open, its close event runs; a window that is already gone is a no-op. -/
def closeById (st : AppState) (i : Nat) : AppState :=
  match st.windows.find? (fun w => w.id == i) with
  | some w => closeWindowObj st w
  | none => st

/-- Source line 276 and lines 274-276: on the first window construction the
class-level `windows_titles` table is loaded from settings, defaulting each
slot title to the slot name. -/
def loadTitlesIfEmpty (st : AppState) : AppState :=
  if st.windows_titles.isEmpty then
    { st with windows_titles := ((windowsNames st.appName).map
        (fun n => (n, assocGetD st.settings (n ++ "/Title") n))) }
  else st

/-- The parts of `__init__` (source lines 54-103) that touch the modeled
state, in source order: `__windowOpened` registers the new instance (initial
QMainWindow title is empty), `__windowMenuSetup` loads the title table and
rebuilds menu labels, and `__restoreSettings` sets the live title from the
persisted `"<name>/Title"` key with default `app_name` (line 440).  Returns
the state and the identity of the new window. -/
def construct (st : AppState) (name : String) : AppState × Nat :=
  let i := st.nextId
  let st1 := { windowOpened st ⟨i, name, ""⟩ with nextId := i + 1 }
  let st2 := windowMenuUpdateState (loadTitlesIfEmpty st1)
  (setTitleById st2 i (assocGetD st2.settings (name ++ "/Title") st2.appName), i)

/-- The application entry point constructs the first MainWindow with no
explicit window name, so source line 72 assigns `self.name =
self.windows_names[0]`, which is `app_name`.  The registry tables start
empty; the settings store holds whatever was persisted by earlier runs. -/
def launchBase (appName appVersion : String)
    (settings0 : List (String × String)) : AppState :=
  { appName := appName, appVersion := appVersion, windows := [],
    windows_titles := [], windows_actions := [], settings := settings0,
    quitSubscribers := [], closingApp := false, nextId := 0 }

def initialLaunch (appName appVersion : String)
    (settings0 : List (String × String)) : AppState :=
  (construct (launchBase appName appVersion settings0) appName).1

/-- Source lines 343-358: `windowMenuOpenWindow`.  If any open window has
this slot name as its `name` or as its current live title, it is raised and
nothing else happens.  Otherwise a new window is constructed for the slot,
and if its restored title equals `app_name` it is renamed to the slot name;
finally the menu labels are rebuilt. -/
def windowMenuOpenWindow (st : AppState) (name : String) : AppState :=
  if st.windows.any (fun w => w.name == name || w.windowTitle == name) then
    st
  else
    let p := construct st name
    let st2 := if titleOfD p.1 p.2 == p.1.appName
               then setTitleById p.1 p.2 name else p.1
    windowMenuUpdateState st2

/-- Source lines 324-341: `__windowMenuHandleChangeTitle` for the window with
identity `i`, given the dialog result `(value, choice)`.  If the dialog was
accepted, the rename is abandoned (return, nothing written) when `value`
equals the `name` or the live title of ANY window in the class list — the
loop does not exclude the current window.  Otherwise the live title and the
`windows_titles` entry are updated.  In both the accepted-without-collision
and the cancelled case, execution falls through to persist the current live
title and rebuild the menu. -/
def windowMenuHandleChangeTitle (st : AppState) (i : Nat) (choice : Bool)
    (value : String) : AppState :=
  match st.windows.find? (fun w => w.id == i) with
  | none => st
  | some self =>
    if choice then
      if st.windows.any (fun w => w.name == value || w.windowTitle == value) then
        st
      else
        let st1 := setTitleById st i value
        let st2 := { st1 with windows_titles := assocSet st1.windows_titles self.name value }
        -- line 339 persists self.windowTitle(), which after the
        -- setWindowTitle(str(value)) on line 335 is value itself
        let st3 := { st2 with settings :=
            (assocSet st2.settings (self.name ++ "/Title") value) }
        windowMenuUpdateState st3
    else
      let st3 := { st with settings :=
          (assocSet st.settings (self.name ++ "/Title") (titleOfD st i)) }
      windowMenuUpdateState st3

/-- Emission of the `quit` signal to a snapshot of the connection list:
each subscriber still open when reached gets its close event (save settings
then `__windowClosed`); subscribers whose window is already closed are
no-ops.  Returns the final state and the identities whose close handling
actually ran, in order. -/
def deliverQuit : List Nat → AppState → AppState × List Nat
  | [], st => (st, [])
  | i :: rest, st =>
    match st.windows.find? (fun w => w.id == i) with
    | some w =>
      let p := deliverQuit rest (closeWindowObj st w)
      (p.1, i :: p.2)
    | none => deliverQuit rest st

/-- Source lines 392-398: `__windowCloseApplication` sets `qApp.closingApp`
to True and emits `quit`, which synchronously closes every connected
window. -/
def windowCloseApplication (st : AppState) : AppState :=
  (deliverQuit st.quitSubscribers { st with closingApp := true }).1

/-- The list of window identities whose close handling runs during the
application-exit broadcast. -/
def quitHandled (st : AppState) : List Nat :=
  (deliverQuit st.quitSubscribers { st with closingApp := true }).2

/-- The facility menu: one checkable entry per facility in creation order
(the `__actions_facility` dict), plus the configured default facility name. -/
structure FacilityMenu where
  actions : List (String × Bool)
  facility_default : String
deriving DecidableEq

/-- The per-entry update used by `setCheckedFac`. -/
def setFacFun (n : String) (b : Bool) : String × Bool → String × Bool :=
  fun p => if p.1 == n then (p.1, b) else p

/-- Sets the checked state of the entry with the given facility name
(`QAction.setChecked`); programmatic, so it fires no `triggered` signal. -/
def setCheckedFac (l : List (String × Bool)) (n : String) (b : Bool) :
    List (String × Bool) :=
  l.map (setFacFun n b)

/-- Reads the checked state of the entry with the given facility name
(`QAction.isChecked`). -/
def isCheckedFac (l : List (String × Bool)) (n : String) : Bool :=
  assocGetD l n false

/-- Source lines 144-164: `__facilityMenuSetup` creates one checkable entry
per facility, all unchecked, then checks the default facility. -/
def facilityMenuSetup (facilities : List String) (fdefault : String) :
    FacilityMenu :=
  { actions := setCheckedFac (facilities.map (fun f => (f, false))) fdefault true,
    facility_default := fdefault }

/-- The observable side effects of the facility handler: the backend call
`opencue.Cuebot.setFacility(name)` and the `facility_changed` emission. -/
inductive FacEffect where
  | setFacility (name : String)
  | facilityChanged
deriving DecidableEq

/-- Source lines 171-182: the state change of `__facilityMenuHandle`.  If the
clicked action is now unchecked: when no facility at all is checked, the
default is re-checked.  If the clicked action is now checked: every entry
whose dict key differs from the action text is unchecked. -/
def uncheckOtherFun (a : String) : String × Bool → String × Bool :=
  fun p => if p.1 != a then (p.1, false) else p

def facilityMenuApply (m : FacilityMenu) (a : String) : FacilityMenu :=
  if !(isCheckedFac m.actions a) then
    if m.actions.any (fun p => p.2) then m
    else { m with actions := setCheckedFac m.actions m.facility_default true }
  else
    { m with actions := m.actions.map (uncheckOtherFun a) }

/-- Source lines 184-190: the final loop of `__facilityMenuHandle` walks the
entries in order and, for the first checked one, calls the backend and emits
`facility_changed`, then returns. -/
def facilityEffects (m : FacilityMenu) : List FacEffect :=
  match m.actions.find? (fun p => p.2) with
  | some p => [FacEffect.setFacility p.1, FacEffect.facilityChanged]
  | none => []

/-- Source lines 166-190: `__facilityMenuHandle` as invoked for one user
click: Qt toggles the checkable action first, then `triggered` runs the
handler.  The `setChecked` calls inside the handler fire no further
`triggered` signals, so the handler runs exactly once per user toggle. -/
def flipFun (a : String) : String × Bool → String × Bool :=
  fun p => if p.1 == a then (p.1, !p.2) else p

def userToggleFacility (m : FacilityMenu) (a : String) :
    FacilityMenu × List FacEffect :=
  let flipped := { m with actions := m.actions.map (flipFun a) }
  let m1 := facilityMenuApply flipped a
  (m1, facilityEffects m1)

/-- The registry invariant: open windows have pairwise distinct identities
and pairwise distinct slot names drawn from the four fixed slot names, every
open window is connected to the quit signal, and identities are below the
freshness counter. -/
abbrev Inv (st : AppState) : Prop :=
  (st.windows.map Window.id).Nodup ∧
  (st.windows.map Window.name).Nodup ∧
  (∀ n ∈ st.windows.map Window.name, n ∈ windowsNames st.appName) ∧
  (∀ i ∈ st.windows.map Window.id, i ∈ st.quitSubscribers) ∧
  (∀ i ∈ st.windows.map Window.id, i < st.nextId)

/-- The states reachable by the program: launch, then any sequence of
Window-menu opens (the menu handler only passes the fixed slot names),
single-window closes, change-title dialogs, and application-exit
broadcasts. -/
inductive Reachable : AppState → Prop
  | launch (appName appVersion : String) (settings0 : List (String × String)) :
      Reachable (initialLaunch appName appVersion settings0)
  | openWin {st : AppState} (name : String) (hst : Reachable st)
      (hname : name ∈ windowsNames st.appName) :
      Reachable (windowMenuOpenWindow st name)
  | closeWin {st : AppState} (i : Nat) (hst : Reachable st) :
      Reachable (closeById st i)
  | retitle {st : AppState} (i : Nat) (choice : Bool) (value : String)
      (hst : Reachable st) :
      Reachable (windowMenuHandleChangeTitle st i choice value)
  | exitApp {st : AppState} (hst : Reachable st) :
      Reachable (windowCloseApplication st)

/-! ### Association list lemmas -/

theorem assocGet?_cons {β : Type} (p : String × β) (l : List (String × β)) (k : String) :
    assocGet? (p :: l) k = if p.1 == k then some p.2 else assocGet? l k := by
  by_cases h : (p.1 == k) = true
  · unfold assocGet?
    rw [@List.find?_cons_of_pos (String × β) (fun r => r.1 == k) p l h, if_pos h]
    rfl
  · unfold assocGet?
    rw [@List.find?_cons_of_neg (String × β) (fun r => r.1 == k) p l h, if_neg h]

theorem assocSetFun_hit {β : Type} (k : String) (v : β) (p : String × β)
    (h : (p.1 == k) = true) : assocSetFun k v p = (k, v) := by
  unfold assocSetFun
  rw [if_pos h]

theorem assocSetFun_miss {β : Type} (k : String) (v : β) (p : String × β)
    (h : ¬ (p.1 == k) = true) : assocSetFun k v p = p := by
  unfold assocSetFun
  rw [if_neg h]

theorem assocGet?_mapset_self {β : Type} (k : String) (v : β) :
    ∀ l : List (String × β), l.any (fun p => p.1 == k) = true →
      assocGet? (l.map (assocSetFun k v)) k = some v := by
  intro l
  induction l with
  | nil => intro h; cases h
  | cons q l ih =>
    intro hany
    by_cases h : (q.1 == k) = true
    · rw [List.map_cons, assocSetFun_hit k v q h, assocGet?_cons,
        if_pos (beq_self_eq_true k)]
    · rw [List.any_cons] at hany
      rw [Bool.not_eq_true] at h
      rw [h, Bool.false_or] at hany
      rw [List.map_cons, assocSetFun_miss k v q (by rw [h]; exact Bool.false_ne_true),
        assocGet?_cons, if_neg (by rw [h]; exact Bool.false_ne_true)]
      exact ih hany

theorem assocGet?_mapset_ne {β : Type} (k q : String) (v : β) (hne : q ≠ k) :
    ∀ l : List (String × β),
      assocGet? (l.map (assocSetFun k v)) q = assocGet? l q := by
  have hkq : ¬ ((k == q) = true) := fun hh => hne (beq_iff_eq.mp hh).symm
  intro l
  induction l with
  | nil => rfl
  | cons p l ih =>
    by_cases h : (p.1 == k) = true
    · have hpk : p.1 = k := beq_iff_eq.mp h
      rw [List.map_cons, assocSetFun_hit k v p h, assocGet?_cons, assocGet?_cons, ih,
        if_neg hkq, if_neg (by rw [hpk]; exact hkq)]
    · rw [List.map_cons, assocSetFun_miss k v p h, assocGet?_cons, assocGet?_cons, ih]

theorem assocGet?_set_self {β : Type} (l : List (String × β)) (k : String) (v : β) :
    assocGet? (assocSet l k v) k = some v := by
  unfold assocSet
  split
  · exact assocGet?_mapset_self k v l (by assumption)
  · rename_i hany
    have hnone : l.find? (fun p => p.1 == k) = none := by
      rw [List.find?_eq_none]
      intro p hp hpk
      exact hany (List.any_eq_true.mpr ⟨p, hp, hpk⟩)
    unfold assocGet?
    rw [List.find?_append, hnone, Option.none_or,
      @List.find?_cons_of_pos (String × β) (fun r => r.1 == k) (k, v) [] (beq_self_eq_true k)]
    rfl

theorem assocGet?_set_ne {β : Type} (l : List (String × β)) (k q : String) (v : β)
    (hne : q ≠ k) : assocGet? (assocSet l k v) q = assocGet? l q := by
  have hkq : ¬ ((k == q) = true) := fun hh => hne (beq_iff_eq.mp hh).symm
  unfold assocSet
  split
  · exact assocGet?_mapset_ne k q v hne l
  · unfold assocGet?
    rw [List.find?_append,
      @List.find?_cons_of_neg (String × β) (fun r => r.1 == q) (k, v) [] hkq,
      List.find?_nil, Option.or_none]

theorem assocGetD_set_self {β : Type} (l : List (String × β)) (k : String) (v d : β) :
    assocGetD (assocSet l k v) k d = v := by
  rw [assocGetD, assocGet?_set_self]
  rfl

theorem assocGetD_set_ne {β : Type} (l : List (String × β)) (k q : String) (v d : β)
    (hne : q ≠ k) : assocGetD (assocSet l k v) q d = assocGetD l q d := by
  rw [assocGetD, assocGet?_set_ne l k q v hne, assocGetD]

theorem assocGet?_map_over {β : Type} (names : List String) (g : String → β) (n : String)
    (hn : n ∈ names) :
    assocGet? (names.map (fun m => (m, g m))) n = some (g n) := by
  induction names with
  | nil => cases hn
  | cons m rest ih =>
    by_cases h : m = n
    · subst h
      rw [List.map_cons, assocGet?_cons, if_pos (beq_self_eq_true m)]
    · have hrest : n ∈ rest := by
        rcases List.mem_cons.mp hn with h' | h'
        · exact absurd h'.symm h
        · exact h'
      have hmn : ¬ ((m == n) = true) := fun hh => h (beq_iff_eq.mp hh)
      rw [List.map_cons, assocGet?_cons, if_neg hmn]
      exact ih hrest

/-! ### Lemmas about retitling and removal in the window list -/

theorem retitleFun_id (i : Nat) (t : String) (w : Window) :
    (retitleFun i t w).id = w.id := by
  unfold retitleFun
  split <;> rfl

theorem retitleFun_name (i : Nat) (t : String) (w : Window) :
    (retitleFun i t w).name = w.name := by
  unfold retitleFun
  split <;> rfl

theorem map_id_retitle (l : List Window) (i : Nat) (t : String) :
    (l.map (retitleFun i t)).map Window.id = l.map Window.id := by
  rw [List.map_map]
  exact List.map_congr_left (fun a _ => retitleFun_id i t a)

theorem map_name_retitle (l : List Window) (i : Nat) (t : String) :
    (l.map (retitleFun i t)).map Window.name = l.map Window.name := by
  rw [List.map_map]
  exact List.map_congr_left (fun a _ => retitleFun_name i t a)

theorem find?_retitle (l : List Window) (i : Nat) (t : String) :
    (l.map (retitleFun i t)).find? (fun w => w.id == i)
      = (l.find? (fun w => w.id == i)).map (retitleFun i t) := by
  induction l with
  | nil => rfl
  | cons w ws ih =>
    by_cases h : (w.id == i) = true
    · have h2 : ((retitleFun i t w).id == i) = true := by rw [retitleFun_id]; exact h
      rw [List.map_cons,
        @List.find?_cons_of_pos Window (fun u => u.id == i) (retitleFun i t w)
          (ws.map (retitleFun i t)) h2,
        @List.find?_cons_of_pos Window (fun u => u.id == i) w ws h]
      rfl
    · have h2 : ¬ (((retitleFun i t w).id == i) = true) := by rw [retitleFun_id]; exact h
      rw [List.map_cons,
        @List.find?_cons_of_neg Window (fun u => u.id == i) (retitleFun i t w)
          (ws.map (retitleFun i t)) h2,
        @List.find?_cons_of_neg Window (fun u => u.id == i) w ws h, ih]

theorem removeFirstById_sublist (l : List Window) (i : Nat) :
    (removeFirstById l i).Sublist l := by
  induction l with
  | nil => simp [removeFirstById]
  | cons w ws ih =>
    unfold removeFirstById
    split
    · exact List.sublist_cons_self w ws
    · exact List.Sublist.cons₂ w ih

/-! ### Field projections of the state operations -/

theorem windowMenuUpdateState_windows (st : AppState) :
    (windowMenuUpdateState st).windows = st.windows := rfl

theorem windowMenuUpdateState_settings (st : AppState) :
    (windowMenuUpdateState st).settings = st.settings := rfl

theorem windowMenuUpdateState_titles (st : AppState) :
    (windowMenuUpdateState st).windows_titles = st.windows_titles := rfl

theorem loadTitlesIfEmpty_windows (st : AppState) :
    (loadTitlesIfEmpty st).windows = st.windows := by
  unfold loadTitlesIfEmpty; split <;> rfl

theorem loadTitlesIfEmpty_settings (st : AppState) :
    (loadTitlesIfEmpty st).settings = st.settings := by
  unfold loadTitlesIfEmpty; split <;> rfl

theorem loadTitlesIfEmpty_appName (st : AppState) :
    (loadTitlesIfEmpty st).appName = st.appName := by
  unfold loadTitlesIfEmpty; split <;> rfl

theorem loadTitlesIfEmpty_subs (st : AppState) :
    (loadTitlesIfEmpty st).quitSubscribers = st.quitSubscribers := by
  unfold loadTitlesIfEmpty; split <;> rfl

theorem loadTitlesIfEmpty_nextId (st : AppState) :
    (loadTitlesIfEmpty st).nextId = st.nextId := by
  unfold loadTitlesIfEmpty; split <;> rfl

theorem construct_snd (st : AppState) (name : String) :
    (construct st name).2 = st.nextId := rfl

theorem construct_map_id (st : AppState) (name : String) :
    (construct st name).1.windows.map Window.id
      = st.windows.map Window.id ++ [st.nextId] := by
  show ((setTitleById _ _ _).windows.map Window.id) = _
  unfold setTitleById
  simp only [map_id_retitle, windowMenuUpdateState_windows, loadTitlesIfEmpty_windows]
  simp [windowOpened]

theorem construct_map_name (st : AppState) (name : String) :
    (construct st name).1.windows.map Window.name
      = st.windows.map Window.name ++ [name] := by
  show ((setTitleById _ _ _).windows.map Window.name) = _
  unfold setTitleById
  simp only [map_name_retitle, windowMenuUpdateState_windows, loadTitlesIfEmpty_windows]
  simp [windowOpened]

theorem construct_subs (st : AppState) (name : String) :
    (construct st name).1.quitSubscribers = st.quitSubscribers ++ [st.nextId] := by
  show (setTitleById _ _ _).quitSubscribers = _
  unfold setTitleById windowMenuUpdateState
  simp [loadTitlesIfEmpty_subs, windowOpened]

theorem construct_nextId (st : AppState) (name : String) :
    (construct st name).1.nextId = st.nextId + 1 := by
  show (setTitleById _ _ _).nextId = _
  unfold setTitleById windowMenuUpdateState
  simp [loadTitlesIfEmpty_nextId, windowOpened]

theorem construct_appName (st : AppState) (name : String) :
    (construct st name).1.appName = st.appName := by
  show (setTitleById _ _ _).appName = _
  unfold setTitleById windowMenuUpdateState
  simp [loadTitlesIfEmpty_appName, windowOpened]

theorem construct_settings (st : AppState) (name : String) :
    (construct st name).1.settings = st.settings := by
  show (setTitleById _ _ _).settings = _
  unfold setTitleById windowMenuUpdateState
  simp [loadTitlesIfEmpty_settings, windowOpened]

/-! ### The four slot names are pairwise distinct -/

theorem append_right_ne (a : String) {s t : String} (h : s ≠ t) : a ++ s ≠ a ++ t := by
  intro he
  apply h
  apply String.ext
  have hd := congrArg String.data he
  rw [String.data_append, String.data_append] at hd
  exact List.append_cancel_left hd

theorem self_ne_append (a s : String) (hs : s.length ≠ 0) : a ≠ a ++ s := by
  intro he
  have hl := congrArg String.length he
  rw [String.length_append] at hl
  omega

theorem windowsNames_nodup (a : String) : (windowsNames a).Nodup := by
  have h2 : a ≠ a ++ "_2" := self_ne_append a "_2" (by decide)
  have h3 : a ≠ a ++ "_3" := self_ne_append a "_3" (by decide)
  have h4 : a ≠ a ++ "_4" := self_ne_append a "_4" (by decide)
  have h23 : a ++ "_2" ≠ a ++ "_3" := append_right_ne a (by decide)
  have h24 : a ++ "_2" ≠ a ++ "_4" := append_right_ne a (by decide)
  have h34 : a ++ "_3" ≠ a ++ "_4" := append_right_ne a (by decide)
  simp [windowsNames, List.nodup_cons, List.mem_cons]
  exact ⟨⟨h2, h3, h4⟩, ⟨h23, h24⟩, h34⟩

/-! ### Preservation of the registry invariant -/

theorem inv_setTitleById {st : AppState} (h : Inv st) (i : Nat) (t : String) :
    Inv (setTitleById st i t) := by
  obtain ⟨h1, h2, h3, h4, h5⟩ := h
  have hid : (setTitleById st i t).windows.map Window.id = st.windows.map Window.id :=
    map_id_retitle st.windows i t
  have hname : (setTitleById st i t).windows.map Window.name = st.windows.map Window.name :=
    map_name_retitle st.windows i t
  refine ⟨?_, ?_, ?_, ?_, ?_⟩
  · rw [hid]; exact h1
  · rw [hname]; exact h2
  · rw [hname]; exact h3
  · rw [hid]; exact h4
  · rw [hid]; exact h5

theorem inv_construct {st : AppState} (h : Inv st) (name : String)
    (hname : name ∈ windowsNames st.appName)
    (hfree : ∀ w ∈ st.windows, w.name ≠ name) :
    Inv (construct st name).1 := by
  obtain ⟨h1, h2, h3, h4, h5⟩ := h
  have hid := construct_map_id st name
  have hnm := construct_map_name st name
  have hsub := construct_subs st name
  have hnext := construct_nextId st name
  have happ := construct_appName st name
  refine ⟨?_, ?_, ?_, ?_, ?_⟩
  · rw [hid, List.nodup_append]
    refine ⟨h1, List.nodup_singleton _, ?_⟩
    intro x hx hx2
    rw [List.mem_singleton] at hx2
    subst hx2
    exact absurd (h5 _ hx) (lt_irrefl _)
  · rw [hnm, List.nodup_append]
    refine ⟨h2, List.nodup_singleton _, ?_⟩
    intro x hx hx2
    rw [List.mem_singleton] at hx2
    subst hx2
    obtain ⟨w, hw, hwn⟩ := List.mem_map.mp hx
    exact hfree w hw hwn
  · rw [hnm, happ]
    intro n hn
    rcases List.mem_append.mp hn with h' | h'
    · exact h3 n h'
    · rw [List.mem_singleton] at h'
      subst h'
      exact hname
  · rw [hid, hsub]
    intro x hx
    rcases List.mem_append.mp hx with h' | h'
    · exact List.mem_append.mpr (Or.inl (h4 x h'))
    · exact List.mem_append.mpr (Or.inr h')
  · rw [hid, hnext]
    intro x hx
    rcases List.mem_append.mp hx with h' | h'
    · exact Nat.lt_succ_of_lt (h5 x h')
    · rw [List.mem_singleton] at h'
      subst h'
      exact Nat.lt_succ_self _

theorem inv_windowMenuOpenWindow {st : AppState} (h : Inv st) (name : String)
    (hname : name ∈ windowsNames st.appName) :
    Inv (windowMenuOpenWindow st name) := by
  simp only [windowMenuOpenWindow]
  split
  · exact h
  · rename_i hguard
    have hfree : ∀ w ∈ st.windows, w.name ≠ name := by
      intro w hw hwn
      exact hguard (List.any_eq_true.mpr ⟨w, hw, by rw [hwn]; simp⟩)
    have hc := inv_construct h name hname hfree
    split
    · exact inv_setTitleById hc _ _
    · exact hc

theorem inv_closeWindowObj {st : AppState} (h : Inv st) (w : Window) :
    Inv (closeWindowObj st w) := by
  obtain ⟨h1, h2, h3, h4, h5⟩ := h
  have e1 : (closeWindowObj st w).windows = removeFirstById st.windows w.id := rfl
  have e2 : (closeWindowObj st w).quitSubscribers = st.quitSubscribers ++ [w.id] := rfl
  have hsl : (removeFirstById st.windows w.id).Sublist st.windows :=
    removeFirstById_sublist st.windows w.id
  refine ⟨?_, ?_, ?_, ?_, ?_⟩
  · rw [e1]; exact List.Nodup.sublist (List.Sublist.map Window.id hsl) h1
  · rw [e1]; exact List.Nodup.sublist (List.Sublist.map Window.name hsl) h2
  · rw [e1]
    intro n hn
    exact h3 n (List.Sublist.subset (List.Sublist.map Window.name hsl) hn)
  · rw [e1, e2]
    intro x hx
    exact List.mem_append.mpr
      (Or.inl (h4 x (List.Sublist.subset (List.Sublist.map Window.id hsl) hx)))
  · rw [e1]
    intro x hx
    exact h5 x (List.Sublist.subset (List.Sublist.map Window.id hsl) hx)

theorem inv_closeById {st : AppState} (h : Inv st) (i : Nat) : Inv (closeById st i) := by
  unfold closeById
  split
  · exact inv_closeWindowObj h _
  · exact h

theorem inv_windowMenuHandleChangeTitle {st : AppState} (h : Inv st) (i : Nat)
    (choice : Bool) (value : String) :
    Inv (windowMenuHandleChangeTitle st i choice value) := by
  simp only [windowMenuHandleChangeTitle]
  split
  · exact h
  · split
    · split
      · exact h
      · exact inv_setTitleById h i value
    · exact h

theorem inv_deliverQuit (snap : List Nat) :
    ∀ st : AppState, Inv st → Inv (deliverQuit snap st).1 := by
  induction snap with
  | nil => intro st h; exact h
  | cons i rest ih =>
    intro st h
    simp only [deliverQuit]
    split
    · exact ih _ (inv_closeWindowObj h _)
    · exact ih _ h

theorem inv_windowCloseApplication {st : AppState} (h : Inv st) :
    Inv (windowCloseApplication st) :=
  inv_deliverQuit st.quitSubscribers { st with closingApp := true } h

theorem inv_initialLaunch (a v : String) (s0 : List (String × String)) :
    Inv (initialLaunch a v s0) := by
  unfold initialLaunch
  have hid := construct_map_id (launchBase a v s0) a
  have hnm := construct_map_name (launchBase a v s0) a
  have hsub := construct_subs (launchBase a v s0) a
  have hnext := construct_nextId (launchBase a v s0) a
  have happ := construct_appName (launchBase a v s0) a
  refine ⟨?_, ?_, ?_, ?_, ?_⟩
  · rw [hid]; simp [launchBase]
  · rw [hnm]; simp [launchBase]
  · rw [hnm, happ]
    intro n hn
    simp [launchBase] at hn
    subst hn
    simp [launchBase, windowsNames]
  · rw [hid, hsub]
    intro x hx
    simp [launchBase] at hx
    subst hx
    simp [launchBase]
  · rw [hid, hnext]
    intro x hx
    simp [launchBase] at hx
    subst hx
    simp [launchBase]

theorem reachable_inv {st : AppState} (h : Reachable st) : Inv st := by
  induction h with
  | launch a v s0 => exact inv_initialLaunch a v s0
  | openWin name hst hname ih => exact inv_windowMenuOpenWindow ih name hname
  | closeWin i hst ih => exact inv_closeById ih i
  | retitle i choice value hst ih => exact inv_windowMenuHandleChangeTitle ih i choice value
  | exitApp hst ih => exact inv_windowCloseApplication ih

theorem inv_length_le {st : AppState} (h : Inv st) : st.windows.length ≤ 4 := by
  obtain ⟨-, h2, h3, -, -⟩ := h
  have hsp : (st.windows.map Window.name).Subperm (windowsNames st.appName) :=
    List.subperm_of_subset h2 (fun x hx => h3 x hx)
  have hle := hsp.length_le
  rw [List.length_map] at hle
  simpa [windowsNames] using hle

/-! ### Characterization of the quit broadcast -/

theorem removeFirstById_eq_filter (l : List Window) (i : Nat)
    (h : (l.map Window.id).Nodup) :
    removeFirstById l i = l.filter (fun w => !(w.id == i)) := by
  induction l with
  | nil => rfl
  | cons w ws ih =>
    rw [List.map_cons, List.nodup_cons] at h
    obtain ⟨hw, hws⟩ := h
    by_cases hh : (w.id == i) = true
    · have hwi : w.id = i := beq_iff_eq.mp hh
      have hcond : (!(w.id == i)) = false := by rw [hh]; rfl
      unfold removeFirstById
      rw [if_pos hh, List.filter_cons, hcond, if_neg Bool.false_ne_true]
      symm
      rw [List.filter_eq_self]
      intro u hu
      have hmem : u.id ∈ List.map Window.id ws := List.mem_map_of_mem Window.id hu
      have hne : u.id ≠ i := by
        intro hui
        rw [hui, ← hwi] at hmem
        exact hw hmem
      show (!(u.id == i)) = true
      rw [beq_eq_false_iff_ne.mpr hne]
      rfl
    · have hf : (w.id == i) = false := Bool.eq_false_iff.mpr hh
      have hcond : (!(w.id == i)) = true := by rw [hf]; rfl
      unfold removeFirstById
      rw [if_neg hh, List.filter_cons, hcond, if_pos rfl, ih hws]

theorem any_filter_ne (l : List Window) (i j : Nat) (hij : j ≠ i) :
    ((l.filter (fun a => !(a.id == i))).any (fun a => a.id == j))
      = l.any (fun a => a.id == j) := by
  rw [Bool.eq_iff_iff, List.any_eq_true, List.any_eq_true]
  constructor
  · rintro ⟨a, ha, haj⟩
    exact ⟨a, (List.mem_filter.mp ha).1, haj⟩
  · rintro ⟨a, ha, haj⟩
    refine ⟨a, List.mem_filter.mpr ⟨ha, ?_⟩, haj⟩
    have haj2 : a.id = j := beq_iff_eq.mp haj
    have hfalse : (a.id == i) = false := beq_eq_false_iff_ne.mpr (by rw [haj2]; exact hij)
    show (!(a.id == i)) = true
    rw [hfalse]
    rfl

theorem any_filter_self (l : List Window) (i : Nat) :
    ((l.filter (fun a => !(a.id == i))).any (fun a => a.id == i)) = false := by
  rw [Bool.eq_false_iff]
  intro hany
  obtain ⟨a, ha, hai⟩ := List.any_eq_true.mp hany
  have hmem := (List.mem_filter.mp ha).2
  rw [hai] at hmem
  simp at hmem

theorem deliverQuit_windows (snap : List Nat) :
    ∀ st : AppState, (st.windows.map Window.id).Nodup →
      (deliverQuit snap st).1.windows
        = st.windows.filter (fun w => !(snap.contains w.id)) := by
  induction snap with
  | nil =>
    intro st h
    simp [deliverQuit]
  | cons i rest ih =>
    intro st h
    simp only [deliverQuit]
    split
    · rename_i w hfind
      have hp := List.find?_some hfind
      have hwi : w.id = i := beq_iff_eq.mp hp
      have hwindows : (closeWindowObj st w).windows = removeFirstById st.windows w.id := rfl
      have hnodup2 : ((closeWindowObj st w).windows.map Window.id).Nodup := by
        rw [hwindows]
        exact List.Nodup.sublist (List.Sublist.map Window.id (removeFirstById_sublist _ _)) h
      show (deliverQuit rest (closeWindowObj st w)).1.windows
          = st.windows.filter (fun u => !((i :: rest).contains u.id))
      rw [ih (closeWindowObj st w) hnodup2, hwindows,
        removeFirstById_eq_filter st.windows w.id h, List.filter_filter]
      apply List.filter_congr
      intro a _
      show ((!(rest.contains a.id)) && (!(a.id == w.id))) = (!((i :: rest).contains a.id))
      rw [List.contains_cons, Bool.not_or, hwi, Bool.and_comm]
    · rename_i hfind
      have hnone := List.find?_eq_none.mp hfind
      rw [ih st h]
      apply List.filter_congr
      intro a ha
      have hai : (a.id == i) = false := Bool.eq_false_iff.mpr (hnone a ha)
      show (!(rest.contains a.id)) = (!((i :: rest).contains a.id))
      rw [List.contains_cons, hai, Bool.false_or]

theorem deliverQuit_count (snap : List Nat) :
    ∀ st : AppState, (st.windows.map Window.id).Nodup → ∀ j : Nat,
      (deliverQuit snap st).2.count j
        = if (st.windows.any (fun w => w.id == j)) && snap.contains j then 1 else 0 := by
  induction snap with
  | nil =>
    intro st h j
    simp [deliverQuit]
  | cons i rest ih =>
    intro st h j
    simp only [deliverQuit]
    split
    · rename_i w hfind
      have hp := List.find?_some hfind
      have hwi : w.id = i := beq_iff_eq.mp hp
      have hwindows : (closeWindowObj st w).windows = removeFirstById st.windows w.id := rfl
      have hnodup2 : ((closeWindowObj st w).windows.map Window.id).Nodup := by
        rw [hwindows]
        exact List.Nodup.sublist (List.Sublist.map Window.id (removeFirstById_sublist _ _)) h
      have hfilter : (closeWindowObj st w).windows
          = st.windows.filter (fun a => !(a.id == i)) := by
        rw [hwindows, removeFirstById_eq_filter st.windows w.id h, hwi]
      show (List.count j (i :: (deliverQuit rest (closeWindowObj st w)).2))
          = if (st.windows.any (fun u => u.id == j)) && ((i :: rest).contains j) then 1 else 0
      rw [List.count_cons, ih (closeWindowObj st w) hnodup2 j, hfilter]
      by_cases hji : j = i
      · subst hji
        rw [any_filter_self, Bool.false_and, if_neg Bool.false_ne_true,
          beq_self_eq_true, if_pos rfl]
        have hanyt : st.windows.any (fun u => u.id == j) = true :=
          List.any_eq_true.mpr ⟨w, List.mem_of_find?_eq_some hfind, by rw [hwi]; exact beq_self_eq_true j⟩
        rw [List.contains_cons, beq_self_eq_true, Bool.true_or, hanyt]
        rfl
      · have hij : (i == j) = false := beq_eq_false_iff_ne.mpr (fun hh => hji hh.symm)
        rw [any_filter_ne st.windows i j hji, hij, if_neg Bool.false_ne_true,
          List.contains_cons, beq_eq_false_iff_ne.mpr hji, Bool.false_or]
        omega
    · rename_i hfind
      have hnone := List.find?_eq_none.mp hfind
      show (deliverQuit rest st).2.count j
          = if (st.windows.any (fun u => u.id == j)) && ((i :: rest).contains j) then 1 else 0
      rw [ih st h j]
      by_cases hji : j = i
      · subst hji
        have hanyf : st.windows.any (fun u => u.id == j) = false := by
          rw [Bool.eq_false_iff]
          intro hany
          obtain ⟨a, ha, haj⟩ := List.any_eq_true.mp hany
          exact hnone a ha haj
        rw [hanyf, Bool.false_and, Bool.false_and]
      · rw [List.contains_cons, beq_eq_false_iff_ne.mpr hji, Bool.false_or]

/-! ### Window menu label lemmas -/

theorem assocGet?_slotLabels (settings titles : List (String × String)) :
    ∀ (names : List String) (start k : Nat) (name : String),
      names.Nodup → names[k]? = some name →
      assocGet? (slotLabels settings titles names start) name
        = some (if assocGetD settings (name ++ "/Title") "" ≠ "" then
            "Open Window: " ++ assocGetD titles name ""
          else "(" ++ toString (start + k) ++ ") Add new window") := by
  intro names
  induction names with
  | nil =>
    intro start k name _ hk
    simp at hk
  | cons n rest ih =>
    intro start k name hnd hk
    rw [List.nodup_cons] at hnd
    obtain ⟨hn, hrest⟩ := hnd
    cases k with
    | zero =>
      rw [List.getElem?_cons_zero] at hk
      injection hk with hk
      subst hk
      unfold slotLabels
      rw [assocGet?_cons, if_pos (beq_self_eq_true n), Nat.add_zero]
    | succ k =>
      rw [List.getElem?_cons_succ] at hk
      have hmem : name ∈ rest := List.getElem?_mem hk
      have hne : ¬ ((n == name) = true) := by
        intro hh
        rw [beq_iff_eq.mp hh] at hn
        exact hn hmem
      unfold slotLabels
      rw [assocGet?_cons, if_neg hne, ih (start + 1) k name hrest hk,
        show start + 1 + k = start + (k + 1) by omega]

theorem assocGet?_foldl_raise_skip (name : String) :
    ∀ (ws : List Window) (base : List (String × String)),
      (∀ w ∈ ws, w.name ≠ name) →
      assocGet?
        (ws.foldl (fun acc w => assocSet acc w.name ("Raise Window: " ++ w.windowTitle)) base)
        name
        = assocGet? base name := by
  intro ws
  induction ws with
  | nil =>
    intro base _
    rfl
  | cons w ws ih =>
    intro base hfree
    rw [List.foldl_cons, ih _ (fun u hu => hfree u (List.mem_cons_of_mem w hu))]
    exact assocGet?_set_ne base w.name name _
      (fun he => hfree w (List.mem_cons_self w ws) he.symm)

theorem assocGet?_foldl_raise_hit (name : String) :
    ∀ (ws : List Window) (base : List (String × String)) (w : Window),
      w ∈ ws → w.name = name → (ws.map Window.name).Nodup →
      assocGet?
        (ws.foldl (fun acc u => assocSet acc u.name ("Raise Window: " ++ u.windowTitle)) base)
        name
        = some ("Raise Window: " ++ w.windowTitle) := by
  intro ws
  induction ws with
  | nil =>
    intro base w hw
    cases hw
  | cons u ws ih =>
    intro base w hw hwname hnd
    rw [List.map_cons, List.nodup_cons] at hnd
    obtain ⟨hu, hnd⟩ := hnd
    rcases List.mem_cons.mp hw with he | hmem
    · subst he
      have hfree : ∀ x ∈ ws, x.name ≠ name := by
        intro x hx hxn
        apply hu
        rw [← hwname] at hxn
        rw [← hxn]
        exact List.mem_map_of_mem Window.name hx
      rw [List.foldl_cons, assocGet?_foldl_raise_skip name ws _ hfree, ← hwname]
      exact assocGet?_set_self base w.name _
    · rw [List.foldl_cons]
      exact ih _ w hmem hwname hnd

/-! ### Facility menu lemmas -/

theorem isCheckedFac_cons (p : String × Bool) (l : List (String × Bool)) (n : String) :
    isCheckedFac (p :: l) n = if p.1 == n then p.2 else isCheckedFac l n := by
  by_cases h : (p.1 == n) = true
  · rw [isCheckedFac, assocGetD, assocGet?_cons, if_pos h, if_pos h]
    rfl
  · rw [isCheckedFac, assocGetD, assocGet?_cons, if_neg h, if_neg h]
    rfl

theorem find?_key_unique {β : Type} {l : List (String × β)} {q : String × β} {n : String}
    (hnd : (l.map Prod.fst).Nodup) (hq : q ∈ l) (hqn : q.1 = n) :
    l.find? (fun p => p.1 == n) = some q := by
  induction l with
  | nil => cases hq
  | cons r rest ih =>
    rw [List.map_cons, List.nodup_cons] at hnd
    obtain ⟨hr, hrest⟩ := hnd
    rcases List.mem_cons.mp hq with he | hmem
    · subst he
      exact @List.find?_cons_of_pos _ (fun p => p.1 == n) q rest (beq_iff_eq.mpr hqn)
    · have hrn : ¬ ((r.1 == n) = true) := by
        intro hh
        apply hr
        rw [beq_iff_eq.mp hh, ← hqn]
        exact List.mem_map_of_mem Prod.fst hmem
      rw [@List.find?_cons_of_neg _ (fun p => p.1 == n) r rest hrn]
      exact ih hrest hmem

theorem isCheckedFac_true_exists {l : List (String × Bool)} {a : String}
    (h : isCheckedFac l a = true) :
    ∃ q ∈ l, (q.1 == a) = true ∧ q.2 = true := by
  unfold isCheckedFac assocGetD assocGet? at h
  cases hfind : l.find? (fun p => p.1 == a) with
  | none =>
    rw [hfind] at h
    cases h
  | some q =>
    rw [hfind] at h
    have hpred := List.find?_some hfind
    exact ⟨q, List.mem_of_find?_eq_some hfind, hpred, h⟩

theorem two_le_length_of_mem_ne {α : Type} {x y : α} {l : List α}
    (hx : x ∈ l) (hy : y ∈ l) (hne : x ≠ y) : 2 ≤ l.length := by
  match l with
  | [] => cases hx
  | [z] =>
    rw [List.mem_singleton] at hx hy
    subst hx
    subst hy
    exact absurd rfl hne
  | z1 :: z2 :: rest => simp [List.length_cons]

theorem checked_key_eq {l : List (String × Bool)} {a : String}
    (hone : l.countP Prod.snd = 1) (hch : isCheckedFac l a = true) :
    ∀ p ∈ l, p.2 = true → p.1 = a := by
  obtain ⟨q, hq, hqa, hqt⟩ := isCheckedFac_true_exists hch
  intro p hp hpt
  by_cases hpq : p = q
  · subst hpq
    exact beq_iff_eq.mp hqa
  · exfalso
    have h2 : 2 ≤ (l.filter Prod.snd).length :=
      two_le_length_of_mem_ne (List.mem_filter.mpr ⟨hp, hpt⟩)
        (List.mem_filter.mpr ⟨hq, hqt⟩) hpq
    rw [← List.countP_eq_length_filter] at h2
    omega

theorem flip_all_false {l : List (String × Bool)} {a : String}
    (hnd : (l.map Prod.fst).Nodup)
    (hone : l.countP Prod.snd = 1) (hch : isCheckedFac l a = true) :
    ∀ p ∈ l.map (flipFun a), p.2 = false := by
  intro p hp
  obtain ⟨q, hq, hfq⟩ := List.mem_map.mp hp
  subst hfq
  by_cases hqa : (q.1 == a) = true
  · have hfind := find?_key_unique hnd hq (beq_iff_eq.mp hqa)
    have hq2 : q.2 = true := by
      unfold isCheckedFac assocGetD assocGet? at hch
      rw [hfind] at hch
      exact hch
    show (flipFun a q).2 = false
    unfold flipFun
    rw [if_pos hqa]
    show (!q.2) = false
    rw [hq2]
    rfl
  · have hq2 : q.2 = false := by
      cases hqt : q.2
      · rfl
      · exact absurd (beq_iff_eq.mpr (checked_key_eq hone hch q hq hqt)) hqa
    show (flipFun a q).2 = false
    unfold flipFun
    rw [if_neg hqa]
    exact hq2

theorem all_false_isChecked {l : List (String × Bool)} (hall : ∀ p ∈ l, p.2 = false)
    (n : String) : isCheckedFac l n = false := by
  unfold isCheckedFac assocGetD assocGet?
  cases hfind : l.find? (fun p => p.1 == n) with
  | none => rfl
  | some q =>
    have := hall q (List.mem_of_find?_eq_some hfind)
    show q.2 = false
    exact this

theorem all_false_any {l : List (String × Bool)} (hall : ∀ p ∈ l, p.2 = false) :
    l.any Prod.snd = false := by
  rw [Bool.eq_false_iff]
  intro hany
  obtain ⟨p, hp, hpt⟩ := List.any_eq_true.mp hany
  rw [hall p hp] at hpt
  cases hpt

theorem setCheckedFac_absent {l : List (String × Bool)} {n : String}
    (h : ∀ p ∈ l, p.1 ≠ n) (b : Bool) : setCheckedFac l n b = l := by
  unfold setCheckedFac
  conv_rhs => rw [← List.map_id l]
  apply List.map_congr_left
  intro p hp
  unfold setFacFun
  rw [if_neg (fun hh => h p hp (beq_iff_eq.mp hh))]
  rfl

theorem setCheckedFac_spec {l : List (String × Bool)} {n : String}
    (hnd : (l.map Prod.fst).Nodup) (hdef : n ∈ l.map Prod.fst)
    (hall : ∀ p ∈ l, p.2 = false) :
    (setCheckedFac l n true).countP Prod.snd = 1 ∧
      isCheckedFac (setCheckedFac l n true) n = true := by
  induction l with
  | nil => cases hdef
  | cons q rest ih =>
    rw [List.map_cons, List.nodup_cons] at hnd
    obtain ⟨hq, hrest⟩ := hnd
    by_cases hqn : (q.1 == n) = true
    · have hqn2 : q.1 = n := beq_iff_eq.mp hqn
      have habsent : ∀ p ∈ rest, p.1 ≠ n := by
        intro p hp hpn
        apply hq
        rw [hqn2, ← hpn]
        exact List.mem_map_of_mem Prod.fst hp
      have hhead : setFacFun n true q = (q.1, true) := by
        unfold setFacFun
        rw [if_pos hqn, hqn2]
      rw [show setCheckedFac (q :: rest) n true
            = setFacFun n true q :: setCheckedFac rest n true from rfl,
        hhead, setCheckedFac_absent habsent]
      constructor
      · rw [List.countP_cons]
        have hzero : rest.countP Prod.snd = 0 :=
          List.countP_eq_zero.mpr (fun p hp hpt => by rw [hall p (List.mem_cons_of_mem q hp)] at hpt; cases hpt)
        simp [hzero]
      · rw [isCheckedFac_cons, if_pos hqn]
    · have hdef2 : n ∈ rest.map Prod.fst := by
        rcases List.mem_cons.mp hdef with he | hm
        · exact absurd (beq_iff_eq.mpr he.symm) hqn
        · exact hm
      have hallrest : ∀ p ∈ rest, p.2 = false :=
        fun p hp => hall p (List.mem_cons_of_mem q hp)
      obtain ⟨ih1, ih2⟩ := ih hrest hdef2 hallrest
      have hhead : setFacFun n true q = q := by
        unfold setFacFun
        rw [if_neg hqn]
      rw [show setCheckedFac (q :: rest) n true
            = setFacFun n true q :: setCheckedFac rest n true from rfl, hhead]
      constructor
      · rw [List.countP_cons, hall q (List.mem_cons_self q rest)]
        simpa using ih1
      · rw [isCheckedFac_cons, if_neg hqn]
        exact ih2

theorem isChecked_flip {l : List (String × Bool)} {a : String}
    (hmem : a ∈ l.map Prod.fst) :
    isCheckedFac (l.map (flipFun a)) a = !(isCheckedFac l a) := by
  induction l with
  | nil => cases hmem
  | cons q rest ih =>
    by_cases hqa : (q.1 == a) = true
    · have hhead : flipFun a q = (q.1, !q.2) := by
        unfold flipFun
        rw [if_pos hqa]
      rw [List.map_cons, hhead, isCheckedFac_cons, isCheckedFac_cons]
      show (if ((q.1, !q.2).1 == a) = true then (q.1, !q.2).2 else _) = _
      rw [if_pos hqa, if_pos hqa]
    · have hhead : flipFun a q = q := by
        unfold flipFun
        rw [if_neg hqa]
      have hmem2 : a ∈ rest.map Prod.fst := by
        rcases List.mem_cons.mp hmem with he | hm
        · exact absurd (beq_iff_eq.mpr he.symm) hqa
        · exact hm
      rw [List.map_cons, hhead, isCheckedFac_cons, isCheckedFac_cons, if_neg hqa, if_neg hqa]
      exact ih hmem2

theorem uncheck_after_flip_spec {l : List (String × Bool)} {a : String}
    (hnd : (l.map Prod.fst).Nodup) (hmem : a ∈ l.map Prod.fst)
    (hch : isCheckedFac l a = false) :
    ((l.map (flipFun a)).map (uncheckOtherFun a)).countP Prod.snd = 1 ∧
      isCheckedFac ((l.map (flipFun a)).map (uncheckOtherFun a)) a = true := by
  induction l with
  | nil => cases hmem
  | cons q rest ih =>
    rw [List.map_cons, List.nodup_cons] at hnd
    obtain ⟨hq, hrest⟩ := hnd
    by_cases hqa : (q.1 == a) = true
    · have hqa2 : q.1 = a := beq_iff_eq.mp hqa
      have hq2 : q.2 = false := by
        rw [isCheckedFac_cons, if_pos hqa] at hch
        exact hch
      have hhead : uncheckOtherFun a (flipFun a q) = (q.1, true) := by
        unfold flipFun uncheckOtherFun
        rw [if_pos hqa]
        show (if (((q.1, !q.2).1 != a) = true) then _ else _) = _
        have : ((q.1 != a) : Bool) = false := by
          show (!(q.1 == a)) = false
          rw [hqa]
          rfl
        rw [if_neg (by rw [this]; exact Bool.false_ne_true), hq2]
        rfl
      have htail : ∀ p ∈ (rest.map (flipFun a)).map (uncheckOtherFun a), p.2 = false := by
        intro p hp
        obtain ⟨u, hu, hup⟩ := List.mem_map.mp hp
        obtain ⟨u0, hu0, huf⟩ := List.mem_map.mp hu
        have hu0a : ¬ ((u0.1 == a) = true) := by
          intro hh
          apply hq
          rw [hqa2, ← beq_iff_eq.mp hh]
          exact List.mem_map_of_mem Prod.fst hu0
        have hfu : u = u0 := by
          rw [← huf]
          unfold flipFun
          rw [if_neg hu0a]
        have hua : ((u.1 != a) : Bool) = true := by
          rw [hfu]
          show (!(u0.1 == a)) = true
          rw [Bool.eq_false_iff.mpr hu0a]
          rfl
        rw [← hup]
        unfold uncheckOtherFun
        rw [if_pos hua]
      rw [List.map_cons, List.map_cons, hhead]
      constructor
      · rw [List.countP_cons]
        have hzero : ((rest.map (flipFun a)).map (uncheckOtherFun a)).countP Prod.snd = 0 :=
          List.countP_eq_zero.mpr
            (fun p hp hpt => by rw [htail p hp] at hpt; cases hpt)
        rw [hzero]
        rfl
      · rw [isCheckedFac_cons, if_pos hqa]
    · have hhead : uncheckOtherFun a (flipFun a q) = (q.1, false) := by
        have hf : flipFun a q = q := by
          unfold flipFun
          rw [if_neg hqa]
        rw [hf]
        unfold uncheckOtherFun
        rw [if_pos (by show (!(q.1 == a)) = true; rw [Bool.eq_false_iff.mpr hqa]; rfl)]
      have hmem2 : a ∈ rest.map Prod.fst := by
        rcases List.mem_cons.mp hmem with he | hm
        · exact absurd (beq_iff_eq.mpr he.symm) hqa
        · exact hm
      have hch2 : isCheckedFac rest a = false := by
        rw [isCheckedFac_cons, if_neg hqa] at hch
        exact hch
      obtain ⟨ih1, ih2⟩ := ih hrest hmem2 hch2
      rw [List.map_cons, List.map_cons, hhead]
      constructor
      · rw [List.countP_cons]
        simpa using ih1
      · rw [isCheckedFac_cons, if_neg hqa]
        exact ih2

theorem map_fst_preserve {β : Type} (f : String × β → String × β)
    (hf : ∀ p, (f p).1 = p.1) (l : List (String × β)) :
    (l.map f).map Prod.fst = l.map Prod.fst := by
  rw [List.map_map]
  exact List.map_congr_left (fun p _ => hf p)

theorem facilityEffects_spec {m : FacilityMenu}
    (hnd : (m.actions.map Prod.fst).Nodup)
    (hone : m.actions.countP Prod.snd = 1) :
    ∃ f, isCheckedFac m.actions f = true ∧
      facilityEffects m = [FacEffect.setFacility f, FacEffect.facilityChanged] := by
  cases hfind : m.actions.find? (fun p => p.2) with
  | none =>
    exfalso
    have hnone := List.find?_eq_none.mp hfind
    have hzero : m.actions.countP Prod.snd = 0 :=
      List.countP_eq_zero.mpr (fun p hp => hnone p hp)
    omega
  | some p =>
    have hpm := List.mem_of_find?_eq_some hfind
    have hps := List.find?_some hfind
    refine ⟨p.1, ?_, ?_⟩
    · have hfindk := find?_key_unique hnd hpm rfl
      unfold isCheckedFac assocGetD assocGet?
      rw [hfindk]
      exact hps
    · unfold facilityEffects
      rw [hfind]

theorem facToggle_spec (m : FacilityMenu) (a : String)
    (hnd : (m.actions.map Prod.fst).Nodup)
    (hdef : m.facility_default ∈ m.actions.map Prod.fst)
    (hone : m.actions.countP Prod.snd = 1)
    (hmem : a ∈ m.actions.map Prod.fst) :
    ((userToggleFacility m a).1.actions.countP Prod.snd = 1 ∧
      ((userToggleFacility m a).1.actions.map Prod.fst).Nodup) ∧
    (isCheckedFac m.actions a = true →
      isCheckedFac (userToggleFacility m a).1.actions m.facility_default = true) ∧
    (isCheckedFac m.actions a = false →
      isCheckedFac (userToggleFacility m a).1.actions a = true) := by
  have hkflip : (m.actions.map (flipFun a)).map Prod.fst = m.actions.map Prod.fst :=
    map_fst_preserve (flipFun a) (fun p => by unfold flipFun; split <;> rfl) m.actions
  cases hch : isCheckedFac m.actions a with
  | true =>
    have hallf := flip_all_false hnd hone hch
    have hchflip : isCheckedFac (m.actions.map (flipFun a)) a = false :=
      all_false_isChecked hallf a
    have hresult : (userToggleFacility m a).1.actions
        = setCheckedFac (m.actions.map (flipFun a)) m.facility_default true := by
      show (facilityMenuApply { m with actions := m.actions.map (flipFun a) } a).actions = _
      unfold facilityMenuApply
      split
      · split
        · rename_i hany
          exfalso
          have hany2 : (m.actions.map (flipFun a)).any Prod.snd = true := hany
          rw [all_false_any hallf] at hany2
          cases hany2
        · rfl
      · rename_i hcond
        exfalso
        apply hcond
        show (!(isCheckedFac (m.actions.map (flipFun a)) a)) = true
        rw [hchflip]
        rfl
    obtain ⟨hc1, hc2⟩ := setCheckedFac_spec
      (by rw [hkflip]; exact hnd) (by rw [hkflip]; exact hdef) hallf
    have hks : (setCheckedFac (m.actions.map (flipFun a)) m.facility_default true).map Prod.fst
        = (m.actions.map (flipFun a)).map Prod.fst :=
      map_fst_preserve _ (fun p => by unfold setFacFun; split <;> rfl) _
    refine ⟨⟨?_, ?_⟩, ?_, ?_⟩
    · rw [hresult]
      exact hc1
    · rw [hresult, hks, hkflip]
      exact hnd
    · intro _
      rw [hresult]
      exact hc2
    · intro hfalse
      cases hfalse
  | false =>
    have hchflip : isCheckedFac (m.actions.map (flipFun a)) a = true := by
      rw [isChecked_flip hmem, hch]
      rfl
    have hresult : (userToggleFacility m a).1.actions
        = (m.actions.map (flipFun a)).map (uncheckOtherFun a) := by
      show (facilityMenuApply { m with actions := m.actions.map (flipFun a) } a).actions = _
      unfold facilityMenuApply
      split
      · rename_i hcond
        exfalso
        have hcond2 : (!(isCheckedFac (m.actions.map (flipFun a)) a)) = true := hcond
        rw [hchflip] at hcond2
        cases hcond2
      · rfl
    obtain ⟨hc1, hc2⟩ := uncheck_after_flip_spec hnd hmem hch
    have hku : ((m.actions.map (flipFun a)).map (uncheckOtherFun a)).map Prod.fst
        = (m.actions.map (flipFun a)).map Prod.fst :=
      map_fst_preserve _ (fun p => by unfold uncheckOtherFun; split <;> rfl) _
    refine ⟨⟨?_, ?_⟩, ?_, ?_⟩
    · rw [hresult]
      exact hc1
    · rw [hresult, hku, hkflip]
      exact hnd
    · intro htrue
      cases htrue
    · intro _
      rw [hresult]
      exact hc2

/-! ### Evaluation lemmas for the change-title flow -/

theorem titleOfD_eq_of_find {st : AppState} {i : Nat} {self : Window}
    (hfind : st.windows.find? (fun w => w.id == i) = some self) :
    titleOfD st i = self.windowTitle := by
  unfold titleOfD
  rw [hfind]
  rfl

theorem titleOfD_retitle_found {st : AppState} {i : Nat} {self : Window} (t : String)
    (hfind : st.windows.find? (fun w => w.id == i) = some self) :
    titleOfD (setTitleById st i t) i = t := by
  unfold titleOfD setTitleById
  show (((st.windows.map (retitleFun i t)).find? (fun w => w.id == i)).map
      Window.windowTitle).getD "" = t
  rw [find?_retitle, hfind]
  have hps := List.find?_some hfind
  show (retitleFun i t self).windowTitle = t
  unfold retitleFun
  rw [if_pos hps]

theorem changeTitle_reject_eq {st : AppState} {i : Nat} {v : String}
    (hcoll : st.windows.any (fun w => w.name == v || w.windowTitle == v) = true) :
    windowMenuHandleChangeTitle st i true v = st := by
  unfold windowMenuHandleChangeTitle
  split
  · rfl
  · rw [if_pos rfl, if_pos hcoll]

theorem changeTitle_accept_eq {st : AppState} {i : Nat} {self : Window} {v : String}
    (hfind : st.windows.find? (fun w => w.id == i) = some self)
    (hcoll : st.windows.any (fun w => w.name == v || w.windowTitle == v) = false) :
    windowMenuHandleChangeTitle st i true v
      = windowMenuUpdateState
          { setTitleById st i v with
            windows_titles := assocSet st.windows_titles self.name v,
            settings := assocSet st.settings (self.name ++ "/Title") v } := by
  unfold windowMenuHandleChangeTitle
  split
  · rename_i heq
    rw [hfind] at heq
    cases heq
  · rename_i self2 heq
    rw [hfind] at heq
    injection heq with heq
    subst heq
    rw [if_pos rfl, if_neg (by rw [hcoll]; exact Bool.false_ne_true)]
    rfl

theorem changeTitle_cancel_eq {st : AppState} {i : Nat} {self : Window} (v : String)
    (hfind : st.windows.find? (fun w => w.id == i) = some self) :
    windowMenuHandleChangeTitle st i false v
      = windowMenuUpdateState
          { st with settings :=
              assocSet st.settings (self.name ++ "/Title") (titleOfD st i) } := by
  unfold windowMenuHandleChangeTitle
  split
  · rename_i heq
    rw [hfind] at heq
    cases heq
  · rename_i self2 heq
    rw [hfind] at heq
    injection heq with heq
    subst heq
    rw [if_neg Bool.false_ne_true]

/-! ### Claim C1 -/

/-- C1 counterexample: `__windowOpened` has no duplicate-registration guard.
Registering the one already-registered window instance again simply appends
it, producing a duplicate identity in the class list, instead of failing
with a DuplicateRegistration error. -/
theorem C1_register_no_guard_cex :
    (windowOpened (initialLaunch "App" "1.0" []) ⟨0, "App", "App"⟩).windows
        = [⟨0, "App", "App"⟩, ⟨0, "App", "App"⟩] ∧
      ¬ ((windowOpened (initialLaunch "App" "1.0" []) ⟨0, "App", "App"⟩).windows.map
          Window.id).Nodup := by
  decide

/-- C1 (amended): over every reachable sequence of open and close
operations, the process-wide window list holds no duplicate identity and
never exceeds the four fixed slots; the registration step itself appends
unconditionally (it never fails with DuplicateRegistration) — duplicates
never arise only because registration runs exactly once per constructed
window. -/
theorem C1_no_dup_and_capacity (st : AppState) (h : Reachable st) :
    ((st.windows.map Window.id).Nodup) ∧ st.windows.length ≤ 4 :=
  ⟨(reachable_inv h).1, inv_length_le (reachable_inv h)⟩

theorem C1_no_dup_and_capacity_witness :
    (((windowMenuOpenWindow (initialLaunch "App" "1.0" []) "App_2").windows.map
        Window.id).Nodup)
      ∧ (windowMenuOpenWindow (initialLaunch "App" "1.0" []) "App_2").windows.length ≤ 4 :=
  C1_no_dup_and_capacity _
    (Reachable.openWin "App_2" (Reachable.launch "App" "1.0" []) (by decide))

/-! ### Claim C5 -/

/-- C5: opening a slot name that some live window is bound to raises the
existing window and returns without creating a new one: the state is
unchanged and the open-window list length does not increase. -/
theorem C5_idempotent_open (st : AppState) (name : String)
    (h : ∃ w ∈ st.windows, w.name = name) :
    windowMenuOpenWindow st name = st ∧
      (windowMenuOpenWindow st name).windows.length = st.windows.length := by
  obtain ⟨w, hw, hwn⟩ := h
  have hguard : (st.windows.any (fun u => u.name == name || u.windowTitle == name)) = true :=
    List.any_eq_true.mpr ⟨w, hw, by rw [hwn, beq_self_eq_true]; rfl⟩
  have heq : windowMenuOpenWindow st name = st := by
    unfold windowMenuOpenWindow
    rw [if_pos hguard]
  exact ⟨heq, by rw [heq]⟩

theorem C5_idempotent_open_witness :
    windowMenuOpenWindow (initialLaunch "App" "1.0" []) "App" = initialLaunch "App" "1.0" [] ∧
      (windowMenuOpenWindow (initialLaunch "App" "1.0" []) "App").windows.length
        = (initialLaunch "App" "1.0" []).windows.length :=
  C5_idempotent_open _ "App" ⟨⟨0, "App", "App"⟩, by decide, rfl⟩

/-! ### Claim C9 -/

/-- C9: the duplicate check of `windowMenuOpenWindow` matches slot names and
live titles in one namespace: when any open window is merely TITLED with the
requested slot name, the open raises it and returns without creating a
window, even though the slot itself has no live occupant. -/
theorem C9_title_blocks_open (st : AppState) (name : String)
    (h : ∃ w ∈ st.windows, w.windowTitle = name)
    (hfree : ∀ w ∈ st.windows, w.name ≠ name) :
    windowMenuOpenWindow st name = st := by
  obtain ⟨w, hw, hwt⟩ := h
  have hguard : (st.windows.any (fun u => u.name == name || u.windowTitle == name)) = true :=
    List.any_eq_true.mpr ⟨w, hw, by rw [hwt]; simp⟩
  unfold windowMenuOpenWindow
  rw [if_pos hguard]

theorem C9_title_blocks_open_witness :
    (∀ w ∈ (windowMenuHandleChangeTitle (initialLaunch "App" "1.0" []) 0 true "App_2").windows,
        w.name ≠ "App_2") ∧
    windowMenuOpenWindow
        (windowMenuHandleChangeTitle (initialLaunch "App" "1.0" []) 0 true "App_2") "App_2"
      = windowMenuHandleChangeTitle (initialLaunch "App" "1.0" []) 0 true "App_2" :=
  ⟨by decide,
   C9_title_blocks_open _ "App_2" ⟨⟨0, "App", "App_2"⟩, by decide, rfl⟩ (by decide)⟩

/-! ### Claim C4 -/

def stC4 : AppState :=
  windowMenuHandleChangeTitle (initialLaunch "App" "1.0" []) 0 true "Comp A"

/-- C4 counterexample: the sole open window has slot name `App` and live
title `Comp A`; renaming it to `App` collides with no OTHER open window, so
per the claim the rename should be accepted and persisted — but the code
compares against every window including the renaming one itself, rejects the
rename, and leaves the state (and the persisted title `Comp A`) unchanged. -/
theorem C4_self_collision_cex :
    stC4.windows = [⟨0, "App", "Comp A"⟩] ∧
    windowMenuHandleChangeTitle stC4 0 true "App" = stC4 ∧
    assocGet? (windowMenuHandleChangeTitle stC4 0 true "App").settings "App/Title"
      = some "Comp A" := by
  decide

/-- C4 (amended): the rename is rejected exactly when the new title equals
the slot name or the current live title of ANY open window, including the
window being renamed; on rejection nothing at all changes, and otherwise the
live title, the shared title table entry, and the persisted title are all
updated to the new title. -/
theorem C4_rename_guard (st : AppState) (i : Nat) (self : Window) (v : String)
    (hfind : st.windows.find? (fun w => w.id == i) = some self) :
    (st.windows.any (fun w => w.name == v || w.windowTitle == v) = true →
      windowMenuHandleChangeTitle st i true v = st) ∧
    (st.windows.any (fun w => w.name == v || w.windowTitle == v) = false →
      titleOfD (windowMenuHandleChangeTitle st i true v) i = v ∧
      assocGet? (windowMenuHandleChangeTitle st i true v).windows_titles self.name = some v ∧
      assocGet? (windowMenuHandleChangeTitle st i true v).settings (self.name ++ "/Title")
        = some v) := by
  constructor
  · intro hcoll
    exact changeTitle_reject_eq hcoll
  · intro hcoll
    rw [changeTitle_accept_eq hfind hcoll]
    refine ⟨?_, ?_, ?_⟩
    · exact titleOfD_retitle_found v hfind
    · exact assocGet?_set_self st.windows_titles self.name v
    · exact assocGet?_set_self st.settings (self.name ++ "/Title") v

theorem C4_rename_guard_witness :
    ((initialLaunch "App" "1.0" []).windows.any
        (fun w => w.name == "Comp A" || w.windowTitle == "Comp A") = false) ∧
    (titleOfD (windowMenuHandleChangeTitle (initialLaunch "App" "1.0" []) 0 true "Comp A") 0
        = "Comp A" ∧
      assocGet? (windowMenuHandleChangeTitle (initialLaunch "App" "1.0" []) 0
          true "Comp A").windows_titles "App" = some "Comp A" ∧
      assocGet? (windowMenuHandleChangeTitle (initialLaunch "App" "1.0" []) 0
          true "Comp A").settings ("App" ++ "/Title") = some "Comp A") :=
  ⟨by decide,
   (C4_rename_guard (initialLaunch "App" "1.0" []) 0 ⟨0, "App", "App"⟩ "Comp A"
      (by decide)).2 (by decide)⟩

/-! ### Claim C10 -/

/-- C10: cancelling the change-title dialog leaves the live title and the
shared title table unchanged, yet still writes the current live title to the
persisted Title key and rebuilds the window menu; only a collision rejection
returns without touching the settings store or the menu. -/
theorem C10_cancel_persists (st : AppState) (i : Nat) (self : Window) (v : String)
    (hfind : st.windows.find? (fun w => w.id == i) = some self) :
    ((windowMenuHandleChangeTitle st i false v).windows = st.windows ∧
      (windowMenuHandleChangeTitle st i false v).windows_titles = st.windows_titles ∧
      (windowMenuHandleChangeTitle st i false v).settings
        = assocSet st.settings (self.name ++ "/Title") self.windowTitle ∧
      (windowMenuHandleChangeTitle st i false v).windows_actions
        = computeLabels { st with settings :=
            (assocSet st.settings (self.name ++ "/Title") self.windowTitle) }) ∧
    (st.windows.any (fun w => w.name == v || w.windowTitle == v) = true →
      windowMenuHandleChangeTitle st i true v = st) := by
  have hc := changeTitle_cancel_eq v hfind
  rw [titleOfD_eq_of_find hfind] at hc
  constructor
  · rw [hc]
    exact ⟨rfl, rfl, rfl, rfl⟩
  · intro hcoll
    exact changeTitle_reject_eq hcoll

theorem C10_cancel_persists_witness :
    ((initialLaunch "App" "1.0" []).windows.find? (fun w => w.id == 0)
        = some ⟨0, "App", "App"⟩) ∧
    (((windowMenuHandleChangeTitle (initialLaunch "App" "1.0" []) 0 false "ignored").windows
        = (initialLaunch "App" "1.0" []).windows ∧
      (windowMenuHandleChangeTitle (initialLaunch "App" "1.0" []) 0 false "ignored").windows_titles
        = (initialLaunch "App" "1.0" []).windows_titles ∧
      (windowMenuHandleChangeTitle (initialLaunch "App" "1.0" []) 0 false "ignored").settings
        = assocSet (initialLaunch "App" "1.0" []).settings ("App" ++ "/Title") "App" ∧
      (windowMenuHandleChangeTitle (initialLaunch "App" "1.0" []) 0 false "ignored").windows_actions
        = computeLabels { initialLaunch "App" "1.0" [] with settings :=
            (assocSet (initialLaunch "App" "1.0" []).settings ("App" ++ "/Title") "App") }) ∧
    ((initialLaunch "App" "1.0" []).windows.any
        (fun w => w.name == "ignored" || w.windowTitle == "ignored") = true →
      windowMenuHandleChangeTitle (initialLaunch "App" "1.0" []) 0 true "ignored"
        = initialLaunch "App" "1.0" [])) :=
  ⟨by decide,
   C10_cancel_persists (initialLaunch "App" "1.0" []) 0 ⟨0, "App", "App"⟩ "ignored" (by decide)⟩

/-! ### Claim C2 -/

/-- C2: starting from a facility menu whose entry names are distinct, whose
default is among them, and in which exactly one entry is checked, any user
toggle of an entry leaves exactly one entry checked; and if the toggled
entry was the checked one, the default facility ends up checked (the
selection is never empty). -/
theorem C2_exactly_one_checked (m : FacilityMenu) (a : String)
    (hnd : (m.actions.map Prod.fst).Nodup)
    (hdef : m.facility_default ∈ m.actions.map Prod.fst)
    (hone : m.actions.countP Prod.snd = 1)
    (hmem : a ∈ m.actions.map Prod.fst) :
    (userToggleFacility m a).1.actions.countP Prod.snd = 1 ∧
    (isCheckedFac m.actions a = true →
      isCheckedFac (userToggleFacility m a).1.actions m.facility_default = true) :=
  ⟨((facToggle_spec m a hnd hdef hone hmem).1).1,
   (facToggle_spec m a hnd hdef hone hmem).2.1⟩

theorem C2_exactly_one_checked_witness :
    ((facilityMenuSetup ["local", "cloud"] "local").actions.countP Prod.snd = 1) ∧
    ((userToggleFacility (facilityMenuSetup ["local", "cloud"] "local")
        "local").1.actions.countP Prod.snd = 1 ∧
      (isCheckedFac (facilityMenuSetup ["local", "cloud"] "local").actions "local" = true →
        isCheckedFac (userToggleFacility (facilityMenuSetup ["local", "cloud"] "local")
            "local").1.actions
          (facilityMenuSetup ["local", "cloud"] "local").facility_default = true)) :=
  ⟨by decide,
   C2_exactly_one_checked (facilityMenuSetup ["local", "cloud"] "local") "local"
     (by decide) (by decide) (by decide) (by decide)⟩

/-! ### Claim C6 -/

/-- C6: one user toggle of a facility entry performs exactly one backend
setFacility call and one facilityChanged publish, both for the entry that
ends up checked; the cascaded unchecking of siblings (programmatic
setChecked, which fires no triggered signal) contributes no further
effects. -/
theorem C6_single_backend_call (m : FacilityMenu) (a : String)
    (hnd : (m.actions.map Prod.fst).Nodup)
    (hdef : m.facility_default ∈ m.actions.map Prod.fst)
    (hone : m.actions.countP Prod.snd = 1)
    (hmem : a ∈ m.actions.map Prod.fst) :
    ∃ f, isCheckedFac (userToggleFacility m a).1.actions f = true ∧
      (userToggleFacility m a).2
        = [FacEffect.setFacility f, FacEffect.facilityChanged] := by
  obtain ⟨⟨hc1, hcnd⟩, -, -⟩ := facToggle_spec m a hnd hdef hone hmem
  have heff : (userToggleFacility m a).2 = facilityEffects (userToggleFacility m a).1 := rfl
  obtain ⟨f, hf1, hf2⟩ := facilityEffects_spec hcnd hc1
  exact ⟨f, hf1, by rw [heff]; exact hf2⟩

theorem C6_single_backend_call_witness :
    ((facilityMenuSetup ["local", "cloud"] "local").actions.countP Prod.snd = 1) ∧
    (∃ f, isCheckedFac (userToggleFacility (facilityMenuSetup ["local", "cloud"] "local")
          "cloud").1.actions f = true ∧
      (userToggleFacility (facilityMenuSetup ["local", "cloud"] "local") "cloud").2
        = [FacEffect.setFacility f, FacEffect.facilityChanged]) :=
  ⟨by decide,
   C6_single_backend_call (facilityMenuSetup ["local", "cloud"] "local") "cloud"
     (by decide) (by decide) (by decide) (by decide)⟩

/-! ### Claim C7 -/

/-- C7: broadcasting application exit (setting closingApp and emitting quit)
closes every currently open window exactly once — each open window's close
handling runs once during the broadcast — and afterwards the open-window
list is empty, so every slot is free for reuse. -/
theorem C7_broadcast_closes_all (st : AppState) (h : Reachable st) :
    (windowCloseApplication st).windows = [] ∧
    ∀ w ∈ st.windows, (quitHandled st).count w.id = 1 := by
  obtain ⟨h1, h2, h3, h4, h5⟩ := reachable_inv h
  constructor
  · unfold windowCloseApplication
    rw [deliverQuit_windows st.quitSubscribers { st with closingApp := true } h1,
      List.filter_eq_nil_iff]
    intro w hw
    have hmem : w.id ∈ st.quitSubscribers := h4 w.id (List.mem_map_of_mem Window.id hw)
    have hcont : st.quitSubscribers.contains w.id = true := List.elem_eq_true_of_mem hmem
    intro hfb
    rw [hcont] at hfb
    cases hfb
  · intro w hw
    unfold quitHandled
    rw [deliverQuit_count st.quitSubscribers { st with closingApp := true } h1 w.id]
    have hany : ({ st with closingApp := true } : AppState).windows.any
        (fun u => u.id == w.id) = true :=
      List.any_eq_true.mpr ⟨w, hw, beq_self_eq_true w.id⟩
    have hcont : st.quitSubscribers.contains w.id = true :=
      List.elem_eq_true_of_mem (h4 w.id (List.mem_map_of_mem Window.id hw))
    rw [hany, hcont]
    rfl

theorem C7_broadcast_closes_all_witness :
    (windowCloseApplication (windowMenuOpenWindow (initialLaunch "App" "1.0" []) "App_2")).windows
        = [] ∧
    ∀ w ∈ (windowMenuOpenWindow (initialLaunch "App" "1.0" []) "App_2").windows,
      (quitHandled (windowMenuOpenWindow (initialLaunch "App" "1.0" []) "App_2")).count w.id = 1 :=
  C7_broadcast_closes_all _
    (Reachable.openWin "App_2" (Reachable.launch "App" "1.0" []) (by decide))

/-! ### Claim C8 -/

theorem windowMenuUpdateState_appName (st : AppState) :
    (windowMenuUpdateState st).appName = st.appName := rfl

theorem construct_windows (st : AppState) (name : String) :
    (construct st name).1.windows
      = (st.windows ++ [(⟨st.nextId, name, ""⟩ : Window)]).map
          (retitleFun st.nextId (assocGetD st.settings (name ++ "/Title") st.appName)) := by
  show (setTitleById _ _ _).windows = _
  unfold setTitleById
  simp only [windowMenuUpdateState_windows, windowMenuUpdateState_settings,
    windowMenuUpdateState_appName, loadTitlesIfEmpty_windows, loadTitlesIfEmpty_settings,
    loadTitlesIfEmpty_appName]
  simp [windowOpened]

theorem find?_append_new (st : AppState) (name t : String)
    (hfresh : ∀ j ∈ st.windows.map Window.id, j < st.nextId) :
    ((st.windows ++ [(⟨st.nextId, name, ""⟩ : Window)]).map (retitleFun st.nextId t)).find?
        (fun w => w.id == st.nextId)
      = some (⟨st.nextId, name, t⟩ : Window) := by
  rw [find?_retitle, List.find?_append]
  have hnone : st.windows.find? (fun w => w.id == st.nextId) = none := by
    rw [List.find?_eq_none]
    intro w hw hwp
    have hlt := hfresh w.id (List.mem_map_of_mem Window.id hw)
    rw [beq_iff_eq.mp hwp] at hlt
    exact absurd hlt (lt_irrefl _)
  rw [hnone, Option.none_or,
    @List.find?_cons_of_pos Window (fun w => w.id == st.nextId) ⟨st.nextId, name, ""⟩ []
      (beq_self_eq_true st.nextId)]
  show some (retitleFun st.nextId t ⟨st.nextId, name, ""⟩) = some (⟨st.nextId, name, t⟩ : Window)
  unfold retitleFun
  rw [if_pos (beq_self_eq_true st.nextId)]

theorem construct_titles (st : AppState) (name : String) :
    (construct st name).1.windows_titles
      = if st.windows_titles.isEmpty then
          (windowsNames st.appName).map (fun n => (n, assocGetD st.settings (n ++ "/Title") n))
        else st.windows_titles := by
  show (setTitleById _ _ _).windows_titles = _
  unfold setTitleById
  show (windowMenuUpdateState _).windows_titles = _
  rw [windowMenuUpdateState_titles]
  unfold loadTitlesIfEmpty
  split
  · rename_i hempty
    have hempty2 : st.windows_titles.isEmpty = true := hempty
    rw [if_pos hempty2]
    rfl
  · rename_i hne
    have hne2 : ¬ (st.windows_titles.isEmpty = true) := hne
    rw [if_neg hne2]
    rfl

/-- C8: for a slot whose title was never persisted, the shared title table
entry defaults to the slot name, and the window produced by opening that
slot carries the slot name as its live title — the restore step falls back
to app_name and `windowMenuOpenWindow` then rewrites an app_name title to
the slot name. -/
theorem C8_default_title (st : AppState) (name : String) (hInv : Inv st)
    (hname : name ∈ windowsNames st.appName)
    (hnotitle : assocGet? st.settings (name ++ "/Title") = none)
    (hfree : st.windows.any (fun w => w.name == name || w.windowTitle == name) = false)
    (htable : st.windows_titles = [] ∨ assocGet? st.windows_titles name = some name) :
    titleOfD (windowMenuOpenWindow st name) st.nextId = name ∧
    assocGet? (windowMenuOpenWindow st name).windows_titles name = some name := by
  obtain ⟨-, -, -, -, h5⟩ := hInv
  have ht0 : assocGetD st.settings (name ++ "/Title") st.appName = st.appName := by
    unfold assocGetD
    rw [hnotitle]
    rfl
  have hfind1 : (construct st name).1.windows.find? (fun w => w.id == st.nextId)
      = some (⟨st.nextId, name, st.appName⟩ : Window) := by
    rw [construct_windows, ht0]
    exact find?_append_new st name st.appName h5
  have htp1 : titleOfD (construct st name).1 st.nextId = st.appName := by
    unfold titleOfD
    rw [hfind1]
    rfl
  have hopen : windowMenuOpenWindow st name
      = windowMenuUpdateState (setTitleById (construct st name).1 st.nextId name) := by
    simp only [windowMenuOpenWindow]
    rw [if_neg (by rw [hfree]; exact Bool.false_ne_true)]
    rw [construct_snd, htp1, construct_appName, if_pos (beq_self_eq_true st.appName)]
  constructor
  · rw [hopen]
    show titleOfD (setTitleById (construct st name).1 st.nextId name) st.nextId = name
    exact titleOfD_retitle_found name hfind1
  · rw [hopen]
    show assocGet? (construct st name).1.windows_titles name = some name
    rw [construct_titles]
    by_cases hemp : st.windows_titles.isEmpty = true
    · rw [if_pos hemp, assocGet?_map_over (windowsNames st.appName) _ name hname]
      unfold assocGetD
      rw [hnotitle]
      rfl
    · rw [if_neg hemp]
      rcases htable with he | hg
      · exfalso
        apply hemp
        rw [he]
        rfl
      · exact hg

theorem C8_default_title_witness :
    ("App_2" ∈ windowsNames (initialLaunch "App" "1.0" []).appName) ∧
    (titleOfD (windowMenuOpenWindow (initialLaunch "App" "1.0" []) "App_2")
        (initialLaunch "App" "1.0" []).nextId = "App_2" ∧
      assocGet? (windowMenuOpenWindow (initialLaunch "App" "1.0" []) "App_2").windows_titles
          "App_2" = some "App_2") :=
  ⟨by decide,
   C8_default_title (initialLaunch "App" "1.0" []) "App_2" (by decide) (by decide)
     (by decide) (by decide) (Or.inr (by decide))⟩

/-! ### Claim C3 -/

def stC3 : AppState :=
  closeById (windowMenuOpenWindow (initialLaunch "App" "1.0" []) "App_2") 1

/-- C3 counterexample: open slot App_2 and close it again.  Its persisted
title now equals the bare slot name (never customized) and the slot is
unoccupied, so the claim predicts the label "(2) Add new window"; but the
recomputed label is "Open Window: App_2", because the code tests whether ANY
persisted title exists, not whether it differs from the slot name. -/
theorem C3_label_cex :
    (∀ w ∈ stC3.windows, w.name ≠ "App_2") ∧
    assocGet? stC3.settings "App_2/Title" = some "App_2" ∧
    assocGet? (computeLabels stC3) "App_2" = some "Open Window: App_2" ∧
    assocGet? (computeLabels stC3) "App_2" ≠ some "(2) Add new window" := by
  decide

/-- C3 (amended): the label of the k-th slot is "(<k+1>) Add new window"
exactly when the slot is unoccupied and NO persisted title exists (the
stored value is empty or missing), regardless of whether a stored title
equals the slot name; unoccupied with a non-empty persisted title gives
"Open Window: " followed by the shared title table entry; occupied gives
"Raise Window: " followed by the live title of the occupant. -/
theorem C3_label_rule (st : AppState) (k : Nat) (name : String)
    (hname : (windowsNames st.appName)[k]? = some name) (hInv : Inv st) :
    ((∀ w ∈ st.windows, w.name ≠ name) →
      assocGetD st.settings (name ++ "/Title") "" = "" →
      assocGet? (computeLabels st) name
        = some ("(" ++ toString (k + 1) ++ ") Add new window")) ∧
    ((∀ w ∈ st.windows, w.name ≠ name) →
      assocGetD st.settings (name ++ "/Title") "" ≠ "" →
      assocGet? (computeLabels st) name
        = some ("Open Window: " ++ assocGetD st.windows_titles name "")) ∧
    (∀ w ∈ st.windows, w.name = name →
      assocGet? (computeLabels st) name = some ("Raise Window: " ++ w.windowTitle)) := by
  obtain ⟨-, h2, -, -, -⟩ := hInv
  refine ⟨?_, ?_, ?_⟩
  · intro hunocc hnot
    unfold computeLabels
    rw [assocGet?_foldl_raise_skip name st.windows _ hunocc,
      assocGet?_slotLabels st.settings st.windows_titles (windowsNames st.appName) 1 k name
        (windowsNames_nodup st.appName) hname]
    rw [if_neg (fun hc => hc hnot), Nat.add_comm 1 k]
  · intro hunocc hsome
    unfold computeLabels
    rw [assocGet?_foldl_raise_skip name st.windows _ hunocc,
      assocGet?_slotLabels st.settings st.windows_titles (windowsNames st.appName) 1 k name
        (windowsNames_nodup st.appName) hname]
    rw [if_pos hsome]
  · intro w hw hwname
    unfold computeLabels
    exact assocGet?_foldl_raise_hit name st.windows _ w hw hwname h2

theorem C3_label_rule_witness :
    (assocGetD stC3.settings ("App_2" ++ "/Title") "" ≠ "") ∧
    assocGet? (computeLabels stC3) "App_2"
      = some ("Open Window: " ++ assocGetD stC3.windows_titles "App_2" "") :=
  ⟨by decide,
   (C3_label_rule stC3 1 "App_2" (by decide) (by decide)).2.1 (by decide) (by decide)⟩

end CueGui
